import Mathlib

/-!
Shallow embedding of `ls7366r.py` (driver for the LSI/CSI LS7366R quadrature
counter, accessed over an SPI-like duplex byte channel), together with a
model of the chip itself, and proofs of the specification claims.

The driver code is translated function-by-function from the source.  The
chip (register file and its reaction to instruction bytes) is external
hardware, so it is modelled from the spec: a register file where a write
transaction shifts payload bytes MSB-first into the addressed register,
reads shift the addressed register out MSB-first, and load/clear trigger
in-device transfers, with the instruction byte decoded as operation in the
high two bits and register sub-code in bits 3..5.
-/

/- ## Constants from the source (`ls7366r.py`, module level) -/

def COUNTER_BITS : List ℕ := [32, 24, 16, 8]

def QUADRATURE_MODES : List ℕ := [0, 1, 2, 4]

def QUADRX4 : ℕ := 0x03
def FREE_RUN : ℕ := 0x00
def DISABLE_INDX : ℕ := 0x00
def FILTER_1 : ℕ := 0x00

def BYTE_4 : ℕ := 0x00
def EN_CNTR : ℕ := 0x00
def DIS_CNTR : ℕ := 0x04

/- LS7366R op-code list -/

def CLR_MDR0 : ℕ := 0x08
def CLR_MDR1 : ℕ := 0x10
def CLR_CNTR : ℕ := 0x20
def CLR_STR : ℕ := 0x30
def READ_MDR0 : ℕ := 0x48
def READ_MDR1 : ℕ := 0x50
def READ_CNTR : ℕ := 0x60
def READ_OTR : ℕ := 0x68
def READ_STR : ℕ := 0x70
def WRITE_MDR1 : ℕ := 0x90
def WRITE_MDR0 : ℕ := 0x88
def WRITE_DTR : ℕ := 0x98
def LOAD_CNTR : ℕ := 0xE0
def LOAD_OTR : ℕ := 0xE4

/- ## Chip model (modelled from the spec; the chip is external hardware) -/

/-- Modelled from the spec: the LS7366R register file.  Registers hold
unsigned bit patterns; the two mode registers are one byte, the data /
counter / output registers are up to 32 bits wide. -/
structure Chip where
  mdr0 : ℕ
  mdr1 : ℕ
  dtr : ℕ
  cntr : ℕ
  otr : ℕ
  str : ℕ
deriving DecidableEq, Repr

/-- Operation field of an instruction byte: its high two bits
(0 = clear, 1 = read, 2 = write, 3 = load). -/
def irOp (ir : ℕ) : ℕ := ir / 64

/-- Register sub-code field of an instruction byte: bits 3..5
(1 = MDR0, 2 = MDR1, 3 = DTR, 4 = CNTR, 5 = OTR, 6 = STR). -/
def irReg (ir : ℕ) : ℕ := ir / 8 % 8

/-- Modelled from the spec: byte width of the counter-width-dependent
registers, resolved from the 2-bit width field of MDR1
(0 ↦ 4 bytes, 1 ↦ 3, 2 ↦ 2, 3 ↦ 1). -/
def counterBytes (mdr1 : ℕ) : ℕ := 4 - (mdr1 &&& 3)

/-- Modelled from the spec: the `n` bytes a register containing `v` shifts
out on a read transaction, most significant byte first (only the low
`8*n` bits of `v` are clocked out). -/
def regBytes (n v : ℕ) : List ℕ :=
  (List.range n).map (fun i => v / 2 ^ (8 * (n - 1 - i)) % 256)

/-- Modelled from the spec: effect of a write-only transaction on the chip.
The first byte is the instruction; payload bytes are shifted MSB-first into
the addressed register (a one-byte register keeps the last byte, the data
register keeps the last `counterBytes` bytes); load transfers DTR→CNTR or
CNTR→OTR; clear zeroes the addressed register. -/
def chipWrite (c : Chip) (out : List ℕ) : Chip :=
  match out with
  | [] => c
  | ir :: payload =>
    if irOp ir = 0 then
      if irReg ir = 1 then { c with mdr0 := 0 }
      else if irReg ir = 2 then { c with mdr1 := 0 }
      else if irReg ir = 4 then { c with cntr := 0 }
      else if irReg ir = 6 then { c with str := 0 }
      else c
    else if irOp ir = 2 then
      if irReg ir = 1 then
        { c with mdr0 := payload.foldl (fun _ b => b % 256) c.mdr0 }
      else if irReg ir = 2 then
        { c with mdr1 := payload.foldl (fun _ b => b % 256) c.mdr1 }
      else if irReg ir = 3 then
        let f := fun a b => (a * 256 + b % 256) % 2 ^ (8 * counterBytes c.mdr1)
        { c with dtr := payload.foldl f c.dtr }
      else c
    else if irOp ir = 3 then
      if irReg ir = 4 then { c with cntr := c.dtr }
      else if irReg ir = 5 then { c with otr := c.cntr }
      else c
    else c

/-- Modelled from the spec: full-duplex transaction.  The response has the
same length as the outgoing bytes: one echo byte for the instruction slot
(the driver discards it) followed by the addressed register shifted out
MSB-first; reading CNTR also latches CNTR into OTR. -/
def chipXfer (c : Chip) (out : List ℕ) : List ℕ × Chip :=
  match out with
  | [] => ([], c)
  | ir :: payload =>
    if irOp ir = 1 then
      if irReg ir = 1 then (0 :: regBytes payload.length c.mdr0, c)
      else if irReg ir = 2 then (0 :: regBytes payload.length c.mdr1, c)
      else if irReg ir = 4 then
        (0 :: regBytes payload.length c.cntr, { c with otr := c.cntr })
      else if irReg ir = 5 then (0 :: regBytes payload.length c.otr, c)
      else if irReg ir = 6 then (0 :: regBytes payload.length c.str, c)
      else (0 :: payload.map (fun _ => 0), c)
    else ((ir :: payload).map (fun _ => 0), c)

/- ## Bus transaction log -/

/-- One call into the SPI object, recording the bytes sent out. -/
inductive BusOp where
  | writebytes (out : List ℕ)
  | xfer2 (out : List ℕ)
deriving DecidableEq, Repr

/- ## Driver methods (translated from `class LS7366R`) -/

/-- `_read_mdr0`: `self._spi.xfer2([READ_MDR0, 0x00])[1:]`. -/
def _read_mdr0 (c : Chip) : List ℕ × Chip × List BusOp :=
  let r := chipXfer c [READ_MDR0, 0x00]
  (r.1.drop 1, r.2, [.xfer2 [READ_MDR0, 0x00]])

/-- `_read_mdr1`: `self._spi.xfer2([READ_MDR1, 0x00])[1:]`. -/
def _read_mdr1 (c : Chip) : List ℕ × Chip × List BusOp :=
  let r := chipXfer c [READ_MDR1, 0x00]
  (r.1.drop 1, r.2, [.xfer2 [READ_MDR1, 0x00]])

/-- `bits` property getter: `COUNTER_BITS[self._read_mdr1()[0] & 0x03]`. -/
def bits_get (c : Chip) : ℕ × Chip × List BusOp :=
  let r := _read_mdr1 c
  (COUNTER_BITS.getD (r.1.headD 0 &&& 0x03) 0, r.2)

/-- `_read_cntr`: `self._spi.xfer2([READ_CNTR]+[0]*(self.bits//8))[1:]`
(note: it re-reads the `bits` property, a fresh MDR1 transaction). -/
def _read_cntr (c : Chip) : List ℕ × Chip × List BusOp :=
  let b := bits_get c
  let out := READ_CNTR :: List.replicate (b.1 / 8) 0
  let r := chipXfer b.2.1 out
  (r.1.drop 1, r.2, b.2.2 ++ [.xfer2 out])

/-- `_read_otr`: `self._spi.xfer2([READ_OTR]+[0]*(self.bits//8))[1:]`. -/
def _read_otr (c : Chip) : List ℕ × Chip × List BusOp :=
  let b := bits_get c
  let out := READ_OTR :: List.replicate (b.1 / 8) 0
  let r := chipXfer b.2.1 out
  (r.1.drop 1, r.2, b.2.2 ++ [.xfer2 out])

/-- `_read_str`: `self._spi.xfer2([READ_STR, 0x00])[1:]`. -/
def _read_str (c : Chip) : List ℕ × Chip × List BusOp :=
  let r := chipXfer c [READ_STR, 0x00]
  (r.1.drop 1, r.2, [.xfer2 [READ_STR, 0x00]])

/-- `_write_mdr0`: `self._spi.writebytes([WRITE_MDR0, mode])`. -/
def _write_mdr0 (mode : ℕ) (c : Chip) : Chip × List BusOp :=
  (chipWrite c [WRITE_MDR0, mode], [.writebytes [WRITE_MDR0, mode]])

/-- `_write_mdr1`: `self._spi.writebytes([WRITE_MDR1, mode])`. -/
def _write_mdr1 (mode : ℕ) (c : Chip) : Chip × List BusOp :=
  (chipWrite c [WRITE_MDR1, mode], [.writebytes [WRITE_MDR1, mode]])

/-- Python `value >> k & 0xFF` on an arbitrary-precision signed integer
(arithmetic shift, then low byte; always in `[0, 256)`). -/
def pyByte (v : ℤ) (k : ℕ) : ℕ := (v / 2 ^ k % 256).toNat

/-- `_write_dtr`: `self._spi.writebytes([WRITE_DTR, value >> 24 & 0xFF,
value >> 16 & 0xFF, value >> 8 & 0xFF, value & 0xFF])` — always four data
bytes, regardless of the configured counter width. -/
def _write_dtr (v : ℤ) (c : Chip) : Chip × List BusOp :=
  let out := [WRITE_DTR, pyByte v 24, pyByte v 16, pyByte v 8, pyByte v 0]
  (chipWrite c out, [.writebytes out])

/-- `_load_cntr`: `self._spi.writebytes([LOAD_CNTR])`. -/
def _load_cntr (c : Chip) : Chip × List BusOp :=
  (chipWrite c [LOAD_CNTR], [.writebytes [LOAD_CNTR]])

/-- `_load_otr`: `self._spi.writebytes([LOAD_OTR])`. -/
def _load_otr (c : Chip) : Chip × List BusOp :=
  (chipWrite c [LOAD_OTR], [.writebytes [LOAD_OTR]])

/-- `_clear_mdr0`: `self._spi.writebytes([CLR_MDR0])`. -/
def _clear_mdr0 (c : Chip) : Chip × List BusOp :=
  (chipWrite c [CLR_MDR0], [.writebytes [CLR_MDR0]])

/-- `_clear_mdr1`: `self._spi.writebytes([CLR_MDR1])`. -/
def _clear_mdr1 (c : Chip) : Chip × List BusOp :=
  (chipWrite c [CLR_MDR1], [.writebytes [CLR_MDR1]])

/-- `_clear_cntr`: `self._spi.writebytes([CLR_CNTR])`. -/
def _clear_cntr (c : Chip) : Chip × List BusOp :=
  (chipWrite c [CLR_CNTR], [.writebytes [CLR_CNTR]])

/-- `_clear_str`: `self._spi.writebytes([CLR_STR])`. -/
def _clear_str (c : Chip) : Chip × List BusOp :=
  (chipWrite c [CLR_STR], [.writebytes [CLR_STR]])

/-- `bits` property setter: validates membership in `COUNTER_BITS` before
any bus access, else read-modify-writes the low two bits of MDR1 with
`COUNTER_BITS.index(value)`. -/
def bits_set (v : ℕ) (c : Chip) : Except String Unit × Chip × List BusOp :=
  if v ∉ COUNTER_BITS then (.error "Bits must be one of COUNTER_BITS", c, [])
  else
    let r := _read_mdr1 c
    let w := _write_mdr1 ((r.1.headD 0 &&& 0xFC) ||| COUNTER_BITS.indexOf v) r.2.1
    (.ok (), w.1, r.2.2 ++ w.2)

/-- `quadrature` property getter:
`QUADRATURE_MODES[self._read_mdr0()[0] & 0x03]`. -/
def quadrature_get (c : Chip) : ℕ × Chip × List BusOp :=
  let r := _read_mdr0 c
  (QUADRATURE_MODES.getD (r.1.headD 0 &&& 0x03) 0, r.2)

/-- `quadrature` property setter: validates membership in
`QUADRATURE_MODES` before any bus access, else read-modify-writes the low
two bits of MDR0 with `QUADRATURE_MODES.index(value)`. -/
def quadrature_set (v : ℕ) (c : Chip) : Except String Unit × Chip × List BusOp :=
  if v ∉ QUADRATURE_MODES then (.error "Mode must be one of QUADRATURE_MODES", c, [])
  else
    let r := _read_mdr0 c
    let w := _write_mdr0 ((r.1.headD 0 &&& 0xFC) ||| QUADRATURE_MODES.indexOf v) r.2.1
    (.ok (), w.1, r.2.2 ++ w.2)

/-- The byte-assembly loop of `_get_counts`:
`counts <<= 8; counts |= b` over the bytes read. -/
def assembleBytes (bs : List ℕ) : ℕ :=
  bs.foldl (fun a b => (a <<< 8) ||| b) 0

/-- The sign step of `_get_counts`:
`if counts >> (bits - 1): counts -= 1 << bits`. -/
def signedDecode (bits counts : ℕ) : ℤ :=
  if counts >>> (bits - 1) ≠ 0 then (counts : ℤ) - ((1 <<< bits : ℕ) : ℤ)
  else (counts : ℤ)

/-- `_get_counts` (the `counts` property getter): read `bits`, read the
counter bytes, assemble MSB-first, reinterpret as two's complement at the
configured width. -/
def _get_counts (c : Chip) : ℤ × Chip × List BusOp :=
  let b := bits_get c
  let r := _read_cntr b.2.1
  (signedDecode b.1 (assembleBytes r.1), r.2.1, b.2.2 ++ r.2.2)

/-- `_set_counts` (the `counts` property setter): write DTR, then load the
counter from it.  No validation of the value. -/
def _set_counts (v : ℤ) (c : Chip) : Chip × List BusOp :=
  let w := _write_dtr v c
  let l := _load_cntr w.1
  (l.1, w.2 ++ l.2)

/-- `__init__`: stores the SPI object, writes the default configuration to
MDR0 and MDR1, and sets `counts = 0`. -/
def init (c : Chip) : Chip × List BusOp :=
  let w0 := _write_mdr0 (QUADRX4 ||| FREE_RUN ||| DISABLE_INDX ||| FILTER_1) c
  let w1 := _write_mdr1 (BYTE_4 ||| EN_CNTR) w0.1
  let sc := _set_counts 0 w1.1
  (sc.1, w0.2 ++ w1.2 ++ sc.2)

/-- Modelled from the spec: the `enabled` property getter, absent from
`src/ls7366r.py` (which defines only the `EN_CNTR`/`DIS_CNTR` constants).
Reads the count-enable bit of MDR1, inverted: true iff the `DIS_CNTR` bit
is clear. -/
def enabled_get (c : Chip) : Bool × Chip × List BusOp :=
  let r := _read_mdr1 c
  (decide ((r.1.headD 0 &&& DIS_CNTR) = 0), r.2)

/-- Modelled from the spec: the `enabled` property setter, absent from
`src/ls7366r.py`.  Read-modify-writes the polarity-inverted count-enable
bit of MDR1: logical true writes the bit clear (`EN_CNTR`), logical false
writes it set (`DIS_CNTR`). -/
def enabled_set (v : Bool) (c : Chip) : Chip × List BusOp :=
  let r := _read_mdr1 c
  let w := _write_mdr1 ((r.1.headD 0 &&& 0xFB) ||| (if v then EN_CNTR else DIS_CNTR)) r.2.1
  (w.1, r.2.2 ++ w.2)

/- ## Arithmetic and transaction-shape lemmas -/

theorem shl8_lor_eq (a b : ℕ) (h : b < 256) : (a <<< 8) ||| b = a * 256 + b := by
  apply Nat.eq_of_testBit_eq
  intro j
  have hb : b < 2 ^ 8 := h
  rw [Nat.testBit_or, Nat.testBit_shiftLeft,
    show a * 256 + b = 2 ^ 8 * a + b by ring, Nat.testBit_mul_pow_two_add a hb j]
  by_cases hj : j < 8
  · have : ¬ (8 ≤ j) := by omega
    simp [hj, this]
  · have h8 : 8 ≤ j := by omega
    have : b.testBit j = false := Nat.testBit_lt_two_pow
      (lt_of_lt_of_le hb (Nat.pow_le_pow_right (by omega) h8))
    simp [hj, h8, this]

theorem read_mdr0_eq (c : Chip) :
    _read_mdr0 c = ([c.mdr0 % 256], c, [.xfer2 [0x48, 0]]) := by
  simp [_read_mdr0, chipXfer, irOp, irReg, READ_MDR0, regBytes, List.range_succ]

theorem read_mdr1_eq (c : Chip) :
    _read_mdr1 c = ([c.mdr1 % 256], c, [.xfer2 [0x50, 0]]) := by
  simp [_read_mdr1, chipXfer, irOp, irReg, READ_MDR1, regBytes, List.range_succ]

theorem write_mdr0_eq (m : ℕ) (c : Chip) :
    _write_mdr0 m c = ({ c with mdr0 := m % 256 }, [.writebytes [0x88, m]]) := by
  simp [_write_mdr0, chipWrite, irOp, irReg, WRITE_MDR0]

theorem write_mdr1_eq (m : ℕ) (c : Chip) :
    _write_mdr1 m c = ({ c with mdr1 := m % 256 }, [.writebytes [0x90, m]]) := by
  simp [_write_mdr1, chipWrite, irOp, irReg, WRITE_MDR1]

theorem load_cntr_eq (c : Chip) :
    _load_cntr c = ({ c with cntr := c.dtr }, [.writebytes [0xE0]]) := by
  simp [_load_cntr, chipWrite, irOp, irReg, LOAD_CNTR]

theorem pyByte_lt (v : ℤ) (k : ℕ) : pyByte v k < 256 := by
  unfold pyByte
  omega

theorem pyByte_be (v : ℤ) :
    pyByte v 24 * 16777216 + pyByte v 16 * 65536 + pyByte v 8 * 256 + pyByte v 0
      = (v % 4294967296).toNat := by
  unfold pyByte
  have h24 : (2 : ℤ) ^ 24 = 16777216 := by norm_num
  have h16 : (2 : ℤ) ^ 16 = 65536 := by norm_num
  have h8 : (2 : ℤ) ^ 8 = 256 := by norm_num
  have h0 : (2 : ℤ) ^ 0 = 1 := by norm_num
  rw [h24, h16, h8, h0]
  omega

theorem pyByte_def24 (v : ℤ) : pyByte v 24 = (v / 16777216 % 256).toNat := by
  unfold pyByte; norm_num

theorem pyByte_def16 (v : ℤ) : pyByte v 16 = (v / 65536 % 256).toNat := by
  unfold pyByte; norm_num

theorem pyByte_def8 (v : ℤ) : pyByte v 8 = (v / 256 % 256).toNat := by
  unfold pyByte; norm_num

theorem pyByte_def0 (v : ℤ) : pyByte v 0 = (v % 256).toNat := by
  unfold pyByte; norm_num

theorem write_dtr_eq (v : ℤ) (c : Chip) :
    _write_dtr v c =
      ({ c with dtr :=
          ((((c.dtr * 256 + pyByte v 24) % 2 ^ (8 * counterBytes c.mdr1) * 256
              + pyByte v 16) % 2 ^ (8 * counterBytes c.mdr1) * 256
              + pyByte v 8) % 2 ^ (8 * counterBytes c.mdr1) * 256
              + pyByte v 0) % 2 ^ (8 * counterBytes c.mdr1) },
       [.writebytes [0x98, pyByte v 24, pyByte v 16, pyByte v 8, pyByte v 0]]) := by
  have hb : ∀ k, pyByte v k % 256 = pyByte v k := fun k => Nat.mod_eq_of_lt (pyByte_lt v k)
  simp [_write_dtr, chipWrite, irOp, irReg, WRITE_DTR, hb]

theorem read_cntr_eq (c : Chip) :
    _read_cntr c =
      (regBytes (COUNTER_BITS.getD (c.mdr1 % 256 &&& 3) 0 / 8) c.cntr,
       { c with otr := c.cntr },
       [.xfer2 [0x50, 0],
        .xfer2 (0x60 :: List.replicate (COUNTER_BITS.getD (c.mdr1 % 256 &&& 3) 0 / 8) 0)]) := by
  simp [_read_cntr, bits_get, read_mdr1_eq, chipXfer, irOp, irReg, READ_CNTR]

theorem get_counts_eq (c : Chip) :
    _get_counts c =
      (signedDecode (COUNTER_BITS.getD (c.mdr1 % 256 &&& 3) 0)
         (assembleBytes (regBytes (COUNTER_BITS.getD (c.mdr1 % 256 &&& 3) 0 / 8) c.cntr)),
       { c with otr := c.cntr },
       [.xfer2 [0x50, 0], .xfer2 [0x50, 0],
        .xfer2 (0x60 :: List.replicate (COUNTER_BITS.getD (c.mdr1 % 256 &&& 3) 0 / 8) 0)]) := by
  simp [_get_counts, bits_get, read_mdr1_eq, read_cntr_eq]

theorem regBytes_one (v : ℕ) : regBytes 1 v = [v % 256] := by
  simp [regBytes, List.range_succ]

theorem regBytes_two (v : ℕ) : regBytes 2 v = [v / 256 % 256, v % 256] := by
  simp [regBytes, List.range_succ]

theorem regBytes_three (v : ℕ) :
    regBytes 3 v = [v / 65536 % 256, v / 256 % 256, v % 256] := by
  simp [regBytes, List.range_succ]

theorem regBytes_four (v : ℕ) :
    regBytes 4 v = [v / 16777216 % 256, v / 65536 % 256, v / 256 % 256, v % 256] := by
  simp [regBytes, List.range_succ]

theorem assembleBytes_one (b0 : ℕ) : assembleBytes [b0] = b0 := by
  simp [assembleBytes]

theorem assembleBytes_two (b0 b1 : ℕ) (h1 : b1 < 256) :
    assembleBytes [b0, b1] = b0 * 256 + b1 := by
  simp [assembleBytes, shl8_lor_eq _ _ h1]

theorem assembleBytes_three (b0 b1 b2 : ℕ) (h1 : b1 < 256)
    (h2 : b2 < 256) : assembleBytes [b0, b1, b2] = b0 * 65536 + b1 * 256 + b2 := by
  simp [assembleBytes, shl8_lor_eq _ _ h1, shl8_lor_eq _ _ h2]
  ring

theorem assembleBytes_four (b0 b1 b2 b3 : ℕ) (h1 : b1 < 256)
    (h2 : b2 < 256) (h3 : b3 < 256) :
    assembleBytes [b0, b1, b2, b3] = b0 * 16777216 + b1 * 65536 + b2 * 256 + b3 := by
  simp [assembleBytes, shl8_lor_eq _ _ h1, shl8_lor_eq _ _ h2, shl8_lor_eq _ _ h3]
  ring

set_option maxRecDepth 100000 in
theorem mask_table : ∀ m < 256, ∀ i < 4,
    ((m &&& 0xFC) ||| i) &&& 3 = i ∧ ((m &&& 0xFC) ||| i) < 256 ∧
    ((m &&& 0xFC) ||| i) / 4 = m / 4 := by decide

set_option maxRecDepth 100000 in
theorem mask_and3 : ∀ m < 256, m &&& 3 = m % 4 := by decide

set_option maxRecDepth 100000 in
theorem mask_en : ∀ m < 256,
    ((m &&& 0xFB) ||| 4) &&& 4 = 4 ∧ ((m &&& 0xFB) ||| 4) < 256 ∧
    (m &&& 0xFB) &&& 4 = 0 ∧ (m &&& 0xFB) < 256 ∧
    ((m &&& 0xFB) ||| 4) / 4 % 2 = 1 ∧ (m &&& 0xFB) / 4 % 2 = 0 := by decide

theorem fold_eq32 (d B24 B16 B8 B0 : ℕ) (v : ℤ)
    (e24 : (B24 : ℤ) = v / 16777216 % 256) (e16 : (B16 : ℤ) = v / 65536 % 256)
    (e8 : (B8 : ℤ) = v / 256 % 256) (e0 : (B0 : ℤ) = v % 256) :
    ((((d * 256 + B24) % 4294967296 * 256 + B16) % 4294967296 * 256 + B8)
        % 4294967296 * 256 + B0) % 4294967296 = (v % 4294967296).toNat := by
  omega

theorem fold_eq24 (d B24 B16 B8 B0 : ℕ) (v : ℤ)
    (e24 : (B24 : ℤ) = v / 16777216 % 256) (e16 : (B16 : ℤ) = v / 65536 % 256)
    (e8 : (B8 : ℤ) = v / 256 % 256) (e0 : (B0 : ℤ) = v % 256) :
    ((((d * 256 + B24) % 16777216 * 256 + B16) % 16777216 * 256 + B8)
        % 16777216 * 256 + B0) % 16777216 = (v % 16777216).toNat := by
  omega

theorem fold_eq16 (d B24 B16 B8 B0 : ℕ) (v : ℤ)
    (e24 : (B24 : ℤ) = v / 16777216 % 256) (e16 : (B16 : ℤ) = v / 65536 % 256)
    (e8 : (B8 : ℤ) = v / 256 % 256) (e0 : (B0 : ℤ) = v % 256) :
    ((((d * 256 + B24) % 65536 * 256 + B16) % 65536 * 256 + B8)
        % 65536 * 256 + B0) % 65536 = (v % 65536).toNat := by
  omega

theorem fold_eq8 (d B24 B16 B8 B0 : ℕ) (v : ℤ)
    (e24 : (B24 : ℤ) = v / 16777216 % 256) (e16 : (B16 : ℤ) = v / 65536 % 256)
    (e8 : (B8 : ℤ) = v / 256 % 256) (e0 : (B0 : ℤ) = v % 256) :
    ((((d * 256 + B24) % 256 * 256 + B16) % 256 * 256 + B8)
        % 256 * 256 + B0) % 256 = (v % 256).toNat := by
  omega

theorem chop32 (D : ℕ) (hD : D < 4294967296) :
    D / 16777216 % 256 * 16777216 + D / 65536 % 256 * 65536
      + D / 256 % 256 * 256 + D % 256 = D := by
  omega

theorem chop24 (D : ℕ) (hD : D < 16777216) :
    D / 65536 % 256 * 65536 + D / 256 % 256 * 256 + D % 256 = D := by
  omega

theorem chop16 (D : ℕ) (hD : D < 65536) :
    D / 256 % 256 * 256 + D % 256 = D := by
  omega

/- ## Claim theorems -/

set_option maxHeartbeats 1000000 in
/-- C1: for every width w in {8, 16, 24, 32}, after setting the counter
width to w, writing any v in [-2^(w-1), 2^(w-1)-1] through the `counts`
setter and reading the `counts` getter returns v. -/
theorem C1_counts_roundtrip (w : ℕ) (v : ℤ) (c : Chip) (hw : w ∈ COUNTER_BITS)
    (hlo : -(2 ^ (w - 1)) ≤ v) (hhi : v < 2 ^ (w - 1)) :
    (_get_counts (_set_counts v (bits_set w c).2.1).1).1 = v := by
  have hw' : w = 32 ∨ w = 24 ∨ w = 16 ∨ w = 8 := by
    simpa [COUNTER_BITS] using hw
  unfold bits_set
  rcases hw' with rfl | rfl | rfl | rfl
  · rw [if_neg (by decide)]
    have hidx : COUNTER_BITS.indexOf 32 = 0 := by decide
    simp only [read_mdr1_eq, write_mdr1_eq, List.headD_cons, hidx, Nat.or_zero]
    obtain ⟨h3, hlt, -⟩ :=
      mask_table (c.mdr1 % 256) (Nat.mod_lt _ (by norm_num)) 0 (by norm_num)
    rw [Nat.or_zero] at h3 hlt
    rw [Nat.mod_eq_of_lt hlt]
    simp only [_set_counts, write_dtr_eq, load_cntr_eq]
    simp only [counterBytes, h3]
    norm_num
    rw [get_counts_eq]
    simp only [Nat.mod_eq_of_lt hlt, h3]
    have hg : COUNTER_BITS.getD 0 0 = 32 := by decide
    rw [hg, (by norm_num : (32:ℕ) / 8 = 4), regBytes_four]
    rw [assembleBytes_four _ _ _ _ (Nat.mod_lt _ (by norm_num))
      (Nat.mod_lt _ (by norm_num)) (Nat.mod_lt _ (by norm_num))]
    rw [pyByte_def24, pyByte_def16, pyByte_def8, pyByte_def0]
    rw [fold_eq32 _ _ _ _ _ v
      (Int.toNat_of_nonneg (Int.emod_nonneg _ (by norm_num)))
      (Int.toNat_of_nonneg (Int.emod_nonneg _ (by norm_num)))
      (Int.toNat_of_nonneg (Int.emod_nonneg _ (by norm_num)))
      (Int.toNat_of_nonneg (Int.emod_nonneg _ (by norm_num)))]
    rw [chop32 _ (by omega)]
    unfold signedDecode
    rw [Nat.shiftRight_eq_div_pow, Nat.one_shiftLeft]
    norm_num at hlo hhi
    rw [(by norm_num : (2:ℕ) ^ (32 - 1) = 2147483648),
      (by norm_num : (2:ℕ) ^ 32 = 4294967296)]
    split_ifs with h
    · omega
    · omega
  · rw [if_neg (by decide)]
    have hidx : COUNTER_BITS.indexOf 24 = 1 := by decide
    simp only [read_mdr1_eq, write_mdr1_eq, List.headD_cons, hidx]
    obtain ⟨h3, hlt, -⟩ :=
      mask_table (c.mdr1 % 256) (Nat.mod_lt _ (by norm_num)) 1 (by norm_num)
    rw [Nat.mod_eq_of_lt hlt]
    simp only [_set_counts, write_dtr_eq, load_cntr_eq]
    simp only [counterBytes, h3]
    norm_num
    rw [get_counts_eq]
    simp only [Nat.mod_eq_of_lt hlt, h3]
    have hg : COUNTER_BITS.getD 1 0 = 24 := by decide
    rw [hg, (by norm_num : (24:ℕ) / 8 = 3), regBytes_three]
    rw [assembleBytes_three _ _ _ (Nat.mod_lt _ (by norm_num))
      (Nat.mod_lt _ (by norm_num))]
    rw [pyByte_def24, pyByte_def16, pyByte_def8, pyByte_def0]
    rw [fold_eq24 _ _ _ _ _ v
      (Int.toNat_of_nonneg (Int.emod_nonneg _ (by norm_num)))
      (Int.toNat_of_nonneg (Int.emod_nonneg _ (by norm_num)))
      (Int.toNat_of_nonneg (Int.emod_nonneg _ (by norm_num)))
      (Int.toNat_of_nonneg (Int.emod_nonneg _ (by norm_num)))]
    rw [chop24 _ (by omega)]
    unfold signedDecode
    rw [Nat.shiftRight_eq_div_pow, Nat.one_shiftLeft]
    norm_num at hlo hhi
    rw [(by norm_num : (2:ℕ) ^ (24 - 1) = 8388608),
      (by norm_num : (2:ℕ) ^ 24 = 16777216)]
    split_ifs with h
    · omega
    · omega
  · rw [if_neg (by decide)]
    have hidx : COUNTER_BITS.indexOf 16 = 2 := by decide
    simp only [read_mdr1_eq, write_mdr1_eq, List.headD_cons, hidx]
    obtain ⟨h3, hlt, -⟩ :=
      mask_table (c.mdr1 % 256) (Nat.mod_lt _ (by norm_num)) 2 (by norm_num)
    rw [Nat.mod_eq_of_lt hlt]
    simp only [_set_counts, write_dtr_eq, load_cntr_eq]
    simp only [counterBytes, h3]
    norm_num
    rw [get_counts_eq]
    simp only [Nat.mod_eq_of_lt hlt, h3]
    have hg : COUNTER_BITS.getD 2 0 = 16 := by decide
    rw [hg, (by norm_num : (16:ℕ) / 8 = 2), regBytes_two]
    rw [assembleBytes_two _ _ (Nat.mod_lt _ (by norm_num))]
    rw [pyByte_def24, pyByte_def16, pyByte_def8, pyByte_def0]
    rw [fold_eq16 _ _ _ _ _ v
      (Int.toNat_of_nonneg (Int.emod_nonneg _ (by norm_num)))
      (Int.toNat_of_nonneg (Int.emod_nonneg _ (by norm_num)))
      (Int.toNat_of_nonneg (Int.emod_nonneg _ (by norm_num)))
      (Int.toNat_of_nonneg (Int.emod_nonneg _ (by norm_num)))]
    rw [chop16 _ (by omega)]
    unfold signedDecode
    rw [Nat.shiftRight_eq_div_pow, Nat.one_shiftLeft]
    norm_num at hlo hhi
    rw [(by norm_num : (2:ℕ) ^ (16 - 1) = 32768),
      (by norm_num : (2:ℕ) ^ 16 = 65536)]
    split_ifs with h
    · omega
    · omega
  · rw [if_neg (by decide)]
    have hidx : COUNTER_BITS.indexOf 8 = 3 := by decide
    simp only [read_mdr1_eq, write_mdr1_eq, List.headD_cons, hidx]
    obtain ⟨h3, hlt, -⟩ :=
      mask_table (c.mdr1 % 256) (Nat.mod_lt _ (by norm_num)) 3 (by norm_num)
    rw [Nat.mod_eq_of_lt hlt]
    simp only [_set_counts, write_dtr_eq, load_cntr_eq]
    simp only [counterBytes, h3]
    norm_num
    rw [get_counts_eq]
    simp only [Nat.mod_eq_of_lt hlt, h3]
    have hg : COUNTER_BITS.getD 3 0 = 8 := by decide
    rw [hg, (by norm_num : (8:ℕ) / 8 = 1), regBytes_one]
    rw [assembleBytes_one]
    rw [pyByte_def24, pyByte_def16, pyByte_def8, pyByte_def0]
    rw [fold_eq8 _ _ _ _ _ v
      (Int.toNat_of_nonneg (Int.emod_nonneg _ (by norm_num)))
      (Int.toNat_of_nonneg (Int.emod_nonneg _ (by norm_num)))
      (Int.toNat_of_nonneg (Int.emod_nonneg _ (by norm_num)))
      (Int.toNat_of_nonneg (Int.emod_nonneg _ (by norm_num)))]
    rw [(by omega : ((v % 256).toNat) % 256 = (v % 256).toNat)]
    unfold signedDecode
    rw [Nat.shiftRight_eq_div_pow, Nat.one_shiftLeft]
    norm_num at hlo hhi
    rw [(by norm_num : (2:ℕ) ^ (8 - 1) = 128), (by norm_num : (2:ℕ) ^ 8 = 256)]
    split_ifs with h
    · omega
    · omega

/-- Witness for C1 at a concrete input: width 16, value -12345, arbitrary
initial register contents. -/
theorem C1_counts_roundtrip_witness :
    (_get_counts (_set_counts (-12345) (bits_set 16 ⟨0xAB, 0xCD, 7, 9, 1, 2⟩).2.1).1).1
      = -12345 :=
  C1_counts_roundtrip 16 (-12345) ⟨0xAB, 0xCD, 7, 9, 1, 2⟩ (by decide)
    (by norm_num) (by norm_num)

/-- C2: the `counts` getter decodes the raw unsigned counter value as two's
complement at the configured width: for bits ∈ {8,16,24,32} and raw < 2^bits
the decode equals raw - 2^bits when bit (bits-1) of raw is set and raw
otherwise; in particular the getter yields -1 for raw 0xFF at width 8, 127
for raw 0x7F at width 8, and -32768 for raw 0x8000 at width 16. -/
theorem C2_signed_decode (bits raw : ℕ) (hb : bits ∈ COUNTER_BITS)
    (hr : raw < 2 ^ bits) :
    (signedDecode bits raw =
      if raw.testBit (bits - 1) then (raw : ℤ) - 2 ^ bits else (raw : ℤ)) ∧
    (_get_counts ⟨0, 3, 0, 0xFF, 0, 0⟩).1 = -1 ∧
    (_get_counts ⟨0, 3, 0, 0x7F, 0, 0⟩).1 = 127 ∧
    (_get_counts ⟨0, 2, 0, 0x8000, 0, 0⟩).1 = -32768 := by
  refine ⟨?_, by decide, by decide, by decide⟩
  have hb' : bits = 32 ∨ bits = 24 ∨ bits = 16 ∨ bits = 8 := by
    simpa [COUNTER_BITS] using hb
  unfold signedDecode
  rw [Nat.shiftRight_eq_div_pow, Nat.one_shiftLeft, Nat.testBit_to_div_mod]
  rcases hb' with rfl | rfl | rfl | rfl
  · norm_num at hr ⊢
    split_ifs with h1 h2 <;> omega
  · norm_num at hr ⊢
    split_ifs with h1 h2 <;> omega
  · norm_num at hr ⊢
    split_ifs with h1 h2 <;> omega
  · norm_num at hr ⊢
    split_ifs with h1 h2 <;> omega

/-- Witness for C2 at concrete inputs. -/
theorem C2_signed_decode_witness :
    signedDecode 16 0x8000 = -32768 :=
  ((C2_signed_decode 16 0x8000 (by decide) (by norm_num)).1).trans (by decide)

theorem pyByte_zero (k : ℕ) : pyByte 0 k = 0 := by
  unfold pyByte
  simp

theorem write_dtr_payload_be (v : ℤ) :
    [pyByte v 24, pyByte v 16, pyByte v 8, pyByte v 0]
      = regBytes 4 (v % 4294967296).toNat := by
  rw [regBytes_four, pyByte_def24, pyByte_def16, pyByte_def8, pyByte_def0]
  simp only [List.cons.injEq, and_true]
  exact ⟨by omega, by omega, by omega, by omega⟩

/-- C3 counterexample: with the counter configured to width 8 (so the
width resolved for DataTransfer is 1 byte), `_write_dtr` still transmits
four data bytes after the Write instruction byte. -/
theorem C3_counterexample :
    (bits_get ⟨0, 3, 0, 0, 0, 0⟩).1 = 8 ∧
    (_write_dtr 5 ⟨0, 3, 0, 0, 0, 0⟩).2 = [.writebytes [0x98, 0, 0, 0, 5]] ∧
    (bits_get ⟨0, 3, 0, 0, 0, 0⟩).1 / 8 = 1 ∧ (4 : ℕ) ≠ 1 := by decide

/-- C3 amended: Mode0 and Mode1 writes serialize exactly one byte after
the Write instruction byte; the DataTransfer write always serializes
exactly four bytes — the value mod 2^32, most significant byte first —
regardless of the configured counter width; all are write-only
transactions (Status, Counter and OutputCounter are never written). -/
theorem C3_amended (m : ℕ) (v : ℤ) (c : Chip) :
    (_write_mdr0 m c).2 = [.writebytes [WRITE_MDR0, m]] ∧
    (_write_mdr1 m c).2 = [.writebytes [WRITE_MDR1, m]] ∧
    (_write_dtr v c).2 =
      [.writebytes (WRITE_DTR :: regBytes 4 (v % 4294967296).toNat)] ∧
    (regBytes 4 (v % 4294967296).toNat).length = 4 := by
  refine ⟨by simp [write_mdr0_eq, WRITE_MDR0], by simp [write_mdr1_eq, WRITE_MDR1], ?_,
    by simp [regBytes]⟩
  rw [← write_dtr_payload_be]
  simp [write_dtr_eq, WRITE_DTR]

/-- C4: thirteen of the fourteen op-code constants equal the bitwise OR of
the documented operation code (Clear=0x00, Read=0x40, Write=0x80,
Load=0xC0) and register sub-code (Mode0=0x08, Mode1=0x10,
DataTransfer=0x18, Counter=0x20, OutputCounter=0x28), but LOAD_OTR is
0xE4, not 0xC0 ||| 0x28 = 0xE8: the code deviates from the documented
table (and from its own docstring, since 0xE4 does not address OTR). -/
theorem C4_opcode_table :
    CLR_MDR0 = 0x00 ||| 0x08 ∧ CLR_MDR1 = 0x00 ||| 0x10 ∧
    CLR_CNTR = 0x00 ||| 0x20 ∧
    READ_MDR0 = 0x40 ||| 0x08 ∧ READ_MDR1 = 0x40 ||| 0x10 ∧
    READ_CNTR = 0x40 ||| 0x20 ∧ READ_OTR = 0x40 ||| 0x28 ∧
    WRITE_MDR0 = 0x80 ||| 0x08 ∧ WRITE_MDR1 = 0x80 ||| 0x10 ∧
    WRITE_DTR = 0x80 ||| 0x18 ∧ LOAD_CNTR = 0xC0 ||| 0x20 ∧
    LOAD_OTR = 0xE4 ∧ (0xC0 ||| 0x28 : ℕ) = 0xE8 ∧
    LOAD_OTR ≠ 0xC0 ||| 0x28 := by decide

/-- C5: setting `bits` to a value outside {8, 16, 24, 32} raises
InvalidArgument (a `ValueError` in the source) before any bus
transaction: the result is the error, the chip state is unchanged, and
the transaction log is empty (Mode1 neither read nor written). -/
theorem C5_bits_invalid_raises (v : ℕ) (c : Chip) (h : v ∉ COUNTER_BITS) :
    bits_set v c = (.error "Bits must be one of COUNTER_BITS", c, []) := by
  unfold bits_set
  rw [if_pos h]

/-- Witness for C5: `bits = 10` on a concrete chip state. -/
theorem C5_bits_invalid_raises_witness :
    bits_set 10 ⟨1, 2, 3, 4, 5, 6⟩ =
      (.error "Bits must be one of COUNTER_BITS", ⟨1, 2, 3, 4, 5, 6⟩, []) :=
  C5_bits_invalid_raises 10 ⟨1, 2, 3, 4, 5, 6⟩ (by decide)

/-- C6: setting `quadrature` to 3 raises InvalidArgument with no bus
transaction; setting it to any v in {0, 1, 2, 4} succeeds and a
subsequent read of `quadrature` returns v. -/
theorem C6_quadrature_set_get (v : ℕ) (c : Chip) (hv : v ∈ QUADRATURE_MODES) :
    quadrature_set 3 c = (.error "Mode must be one of QUADRATURE_MODES", c, []) ∧
    (quadrature_set v c).1 = .ok () ∧
    (quadrature_get (quadrature_set v c).2.1).1 = v := by
  refine ⟨by unfold quadrature_set; rw [if_pos (by decide)], ?_, ?_⟩
  · have hv' : v = 0 ∨ v = 1 ∨ v = 2 ∨ v = 4 := by
      simpa [QUADRATURE_MODES] using hv
    unfold quadrature_set
    rcases hv' with rfl | rfl | rfl | rfl <;> rw [if_neg (by decide)]
  · have hv' : v = 0 ∨ v = 1 ∨ v = 2 ∨ v = 4 := by
      simpa [QUADRATURE_MODES] using hv
    unfold quadrature_set
    rcases hv' with rfl | rfl | rfl | rfl
    · rw [if_neg (by decide)]
      have hidx : QUADRATURE_MODES.indexOf 0 = 0 := by decide
      simp only [read_mdr0_eq, write_mdr0_eq, List.headD_cons, hidx, Nat.or_zero]
      obtain ⟨h3, hlt, -⟩ :=
        mask_table (c.mdr0 % 256) (Nat.mod_lt _ (by norm_num)) 0 (by norm_num)
      rw [Nat.or_zero] at h3 hlt
      simp only [quadrature_get, read_mdr0_eq, List.headD_cons]
      rw [Nat.mod_eq_of_lt hlt, Nat.mod_eq_of_lt hlt, h3]
      decide
    · rw [if_neg (by decide)]
      have hidx : QUADRATURE_MODES.indexOf 1 = 1 := by decide
      simp only [read_mdr0_eq, write_mdr0_eq, List.headD_cons, hidx]
      obtain ⟨h3, hlt, -⟩ :=
        mask_table (c.mdr0 % 256) (Nat.mod_lt _ (by norm_num)) 1 (by norm_num)
      simp only [quadrature_get, read_mdr0_eq, List.headD_cons]
      rw [Nat.mod_eq_of_lt hlt, Nat.mod_eq_of_lt hlt, h3]
      decide
    · rw [if_neg (by decide)]
      have hidx : QUADRATURE_MODES.indexOf 2 = 2 := by decide
      simp only [read_mdr0_eq, write_mdr0_eq, List.headD_cons, hidx]
      obtain ⟨h3, hlt, -⟩ :=
        mask_table (c.mdr0 % 256) (Nat.mod_lt _ (by norm_num)) 2 (by norm_num)
      simp only [quadrature_get, read_mdr0_eq, List.headD_cons]
      rw [Nat.mod_eq_of_lt hlt, Nat.mod_eq_of_lt hlt, h3]
      decide
    · rw [if_neg (by decide)]
      have hidx : QUADRATURE_MODES.indexOf 4 = 3 := by decide
      simp only [read_mdr0_eq, write_mdr0_eq, List.headD_cons, hidx]
      obtain ⟨h3, hlt, -⟩ :=
        mask_table (c.mdr0 % 256) (Nat.mod_lt _ (by norm_num)) 3 (by norm_num)
      simp only [quadrature_get, read_mdr0_eq, List.headD_cons]
      rw [Nat.mod_eq_of_lt hlt, Nat.mod_eq_of_lt hlt, h3]
      decide

/-- Witness for C6: quadrature = 4 on a concrete chip state. -/
theorem C6_quadrature_set_get_witness :
    (quadrature_get (quadrature_set 4 ⟨0xAB, 0xCD, 7, 9, 1, 2⟩).2.1).1 = 4 :=
  (C6_quadrature_set_get 4 ⟨0xAB, 0xCD, 7, 9, 1, 2⟩ (by decide)).2.2

/-- C7: the `quadrature` setter changes only the low two (quadrature)
bits of Mode0: bits 2..7 of the byte written back (its value divided by
4) equal those of the prior Mode0 byte, and no other chip register is
touched. -/
theorem C7_quadrature_frame (v : ℕ) (c : Chip) (hv : v ∈ QUADRATURE_MODES)
    (hc : c.mdr0 < 256) :
    ((quadrature_set v c).2.1).mdr0 / 4 = c.mdr0 / 4 ∧
    ((quadrature_set v c).2.1).mdr0 < 256 ∧
    ((quadrature_set v c).2.1).mdr1 = c.mdr1 ∧
    ((quadrature_set v c).2.1).dtr = c.dtr ∧
    ((quadrature_set v c).2.1).cntr = c.cntr ∧
    ((quadrature_set v c).2.1).otr = c.otr ∧
    ((quadrature_set v c).2.1).str = c.str := by
  have hv' : v = 0 ∨ v = 1 ∨ v = 2 ∨ v = 4 := by
    simpa [QUADRATURE_MODES] using hv
  unfold quadrature_set
  rcases hv' with rfl | rfl | rfl | rfl
  · rw [if_neg (by decide)]
    have hidx : QUADRATURE_MODES.indexOf 0 = 0 := by decide
    obtain ⟨-, hlt, hdiv⟩ := mask_table c.mdr0 hc 0 (by norm_num)
    rw [Nat.or_zero] at hlt hdiv
    simp only [read_mdr0_eq, write_mdr0_eq, List.headD_cons, hidx, Nat.or_zero,
      Nat.mod_eq_of_lt hc]
    rw [Nat.mod_eq_of_lt hlt]
    exact ⟨hdiv, hlt, trivial, trivial, trivial, trivial, trivial⟩
  · rw [if_neg (by decide)]
    have hidx : QUADRATURE_MODES.indexOf 1 = 1 := by decide
    obtain ⟨-, hlt, hdiv⟩ := mask_table c.mdr0 hc 1 (by norm_num)
    simp only [read_mdr0_eq, write_mdr0_eq, List.headD_cons, hidx,
      Nat.mod_eq_of_lt hc]
    rw [Nat.mod_eq_of_lt hlt]
    exact ⟨hdiv, hlt, trivial, trivial, trivial, trivial, trivial⟩
  · rw [if_neg (by decide)]
    have hidx : QUADRATURE_MODES.indexOf 2 = 2 := by decide
    obtain ⟨-, hlt, hdiv⟩ := mask_table c.mdr0 hc 2 (by norm_num)
    simp only [read_mdr0_eq, write_mdr0_eq, List.headD_cons, hidx,
      Nat.mod_eq_of_lt hc]
    rw [Nat.mod_eq_of_lt hlt]
    exact ⟨hdiv, hlt, trivial, trivial, trivial, trivial, trivial⟩
  · rw [if_neg (by decide)]
    have hidx : QUADRATURE_MODES.indexOf 4 = 3 := by decide
    obtain ⟨-, hlt, hdiv⟩ := mask_table c.mdr0 hc 3 (by norm_num)
    simp only [read_mdr0_eq, write_mdr0_eq, List.headD_cons, hidx,
      Nat.mod_eq_of_lt hc]
    rw [Nat.mod_eq_of_lt hlt]
    exact ⟨hdiv, hlt, trivial, trivial, trivial, trivial, trivial⟩

/-- Witness for C7: quadrature = 1 on a chip whose Mode0 byte is 0xAB. -/
theorem C7_quadrature_frame_witness :
    ((quadrature_set 1 ⟨0xAB, 0xCD, 7, 9, 1, 2⟩).2.1).mdr0 / 4 = 0xAB / 4 :=
  (C7_quadrature_frame 1 ⟨0xAB, 0xCD, 7, 9, 1, 2⟩ (by decide) (by decide)).1

/-- C8: the (spec-modelled) `enabled` property is a polarity-inverted
view of the Mode1 count-disable bit: `enabled = False` sets the DIS_CNTR
bit (bit 2 of Mode1) and a subsequent read returns False; `enabled =
True` clears the bit and a subsequent read returns True. -/
theorem C8_enabled_polarity (c : Chip) :
    (enabled_get (enabled_set false c).1).1 = false ∧
    ((enabled_set false c).1).mdr1 / 4 % 2 = 1 ∧
    (enabled_get (enabled_set true c).1).1 = true ∧
    ((enabled_set true c).1).mdr1 / 4 % 2 = 0 := by
  obtain ⟨hset4, hlt4, hclr4, hltc, hbit1, hbit0⟩ :=
    mask_en (c.mdr1 % 256) (Nat.mod_lt _ (by norm_num))
  simp only [enabled_set, enabled_get, read_mdr1_eq, write_mdr1_eq, List.headD_cons,
    EN_CNTR, DIS_CNTR]
  norm_num
  rw [Nat.mod_eq_of_lt hlt4, Nat.mod_eq_of_lt hltc]
  simp [hset4, hclr4, hbit1, hbit0]

/-- C9 counterexample: constructing the device handle is not
transaction-free: on a concrete chip state, `__init__` issues bus
transactions and changes the register state. -/
theorem C9_counterexample :
    (init ⟨0xFF, 0xFF, 7, 9, 1, 2⟩).2 ≠ [] ∧
    (init ⟨0xFF, 0xFF, 7, 9, 1, 2⟩).1 ≠ ⟨0xFF, 0xFF, 7, 9, 1, 2⟩ := by decide

/-- C9 amended: constructing the handle writes the default configuration
(Mode0 := 0x03 = QUADRX4|FREE_RUN|DISABLE_INDX|FILTER_1, Mode1 := 0x00 =
BYTE_4|EN_CNTR) and zeroes the counter (DataTransfer := 0, then Load
Counter), issuing exactly these four bus write transactions; beyond that
the handle caches nothing (OTR and STR are untouched). -/
theorem C9_amended (c : Chip) :
    init c = (⟨3, 0, 0, 0, c.otr, c.str⟩,
      [.writebytes [0x88, 3], .writebytes [0x90, 0],
       .writebytes [0x98, 0, 0, 0, 0], .writebytes [0xE0]]) := by
  simp only [init, write_mdr0_eq, write_mdr1_eq, _set_counts, write_dtr_eq,
    load_cntr_eq, pyByte_zero, QUADRX4, FREE_RUN, DISABLE_INDX, FILTER_1,
    BYTE_4, EN_CNTR, counterBytes, Nat.or_zero]
  norm_num
  omega

/-- C10: the `counts` setter performs no validation and cannot raise: for
every integer value it writes the Write-DTR instruction followed by the
four bytes of value mod 2^32, most significant byte first, then issues
the single-byte Load-Counter instruction. -/
theorem C10_set_counts_no_validation (v : ℤ) (c : Chip) :
    (_set_counts v c).2 =
      [.writebytes (WRITE_DTR :: regBytes 4 (v % 4294967296).toNat),
       .writebytes [LOAD_CNTR]] := by
  rw [← write_dtr_payload_be]
  simp [_set_counts, write_dtr_eq, load_cntr_eq, WRITE_DTR, LOAD_CNTR]
